import Mathlib

/-!
Verification of the client-side i18n translation engine
(`static/js/i18n.js`): JSON-like value model, dotted-path key
resolution, namespace fallback, language store, translation loading
and DOM application.
-/

set_option maxRecDepth 4000

/-- JSON-like runtime values as manipulated by the engine.  `undefined`
models the JavaScript `undefined` value (absent registry entries,
out-of-range array indexing); `null` models JavaScript `null`, which
the engine also uses as its not-found sentinel. -/
inductive Js where
  | null
  | undefined
  | bool (b : Bool)
  | num (n : Int)
  | str (s : String)
  | arr (elems : List Js)
  | obj (fields : List (String × Js))
deriving Repr

/-- JavaScript truthiness on the modelled value domain. -/
def jsTruthy : Js → Bool
  | .null => false
  | .undefined => false
  | .bool b => b
  | .num n => n != 0
  | .str s => s != ""
  | .arr _ => true
  | .obj _ => true

/-- First-binding association-list lookup, modelling `key in obj` /
`obj[key]` own-property access on plain JSON objects. -/
def lookupField {α : Type} : List (String × α) → String → Option α
  | [], _ => none
  | (k, v) :: rest, key => if k = key then some v else lookupField rest key

/-- Association-list update modelling `obj[key] = v`: updates the
existing binding in place, otherwise appends. -/
def setField {α : Type} : List (String × α) → String → α → List (String × α)
  | [], key, v => [(key, v)]
  | (k, w) :: rest, key, v =>
      if k = key then (k, v) :: rest else (k, w) :: setField rest key v

/-- The whitespace characters trimmed by JavaScript numeric coercion. -/
def isWsChar (c : Char) : Bool :=
  c = ' ' || c = '\t' || c = '\n' || c = '\r' || c = '\x0b' || c = '\x0c'

def isDigitChar (c : Char) : Bool := '0' ≤ c && c ≤ '9'

def isHexDigitChar (c : Char) : Bool :=
  isDigitChar c || ('a' ≤ c && c ≤ 'f') || ('A' ≤ c && c ≤ 'F')

def isOctDigitChar (c : Char) : Bool := '0' ≤ c && c ≤ '7'

def isBinDigitChar (c : Char) : Bool := c = '0' || c = '1'

/-- Trim leading and trailing whitespace (JS `Number` coercion trims). -/
def jsTrim (cs : List Char) : List Char :=
  ((cs.dropWhile isWsChar).reverse.dropWhile isWsChar).reverse

/-- `(+|-)?digits+`, the tail of an exponent. -/
def isSignedDigits (cs : List Char) : Bool :=
  match cs with
  | '+' :: r => !r.isEmpty && r.all isDigitChar
  | '-' :: r => !r.isEmpty && r.all isDigitChar
  | r => !r.isEmpty && r.all isDigitChar

/-- Exponent part of a JS decimal literal: empty, or `(e|E)(+|-)?digits`. -/
def isExpPart : List Char → Bool
  | [] => true
  | 'e' :: rest => isSignedDigits rest
  | 'E' :: rest => isSignedDigits rest
  | _ => false

/-- Unsigned JS decimal literal: `digits [. digits] [exp]` or `. digits [exp]`. -/
def isUnsignedDecimal (cs : List Char) : Bool :=
  let intPart := cs.takeWhile isDigitChar
  let rest := cs.dropWhile isDigitChar
  if intPart.isEmpty then
    match rest with
    | '.' :: r => !(r.takeWhile isDigitChar).isEmpty && isExpPart (r.dropWhile isDigitChar)
    | _ => false
  else
    match rest with
    | [] => true
    | '.' :: r => isExpPart (r.dropWhile isDigitChar)
    | r => isExpPart r

/-- Whether JavaScript `Number(s)` is not NaN, i.e. `!isNaN(s)`:
trimmed empty string coerces to 0; hex/octal/binary prefixed forms;
optionally signed decimal literals and Infinity. -/
def jsIsNumeric (s : String) : Bool :=
  let cs := jsTrim s.toList
  if cs.isEmpty then true
  else
    match cs with
    | '0' :: 'x' :: r => !r.isEmpty && r.all isHexDigitChar
    | '0' :: 'X' :: r => !r.isEmpty && r.all isHexDigitChar
    | '0' :: 'o' :: r => !r.isEmpty && r.all isOctDigitChar
    | '0' :: 'O' :: r => !r.isEmpty && r.all isOctDigitChar
    | '0' :: 'b' :: r => !r.isEmpty && r.all isBinDigitChar
    | '0' :: 'B' :: r => !r.isEmpty && r.all isBinDigitChar
    | '+' :: r => isUnsignedDecimal r || r = "Infinity".toList
    | '-' :: r => isUnsignedDecimal r || r = "Infinity".toList
    | r => isUnsignedDecimal r || r = "Infinity".toList

def hexDigitVal (c : Char) : Int :=
  if isDigitChar c then (c.toNat : Int) - ('0'.toNat : Int)
  else if 'a' ≤ c && c ≤ 'f' then (c.toNat : Int) - ('a'.toNat : Int) + 10
  else (c.toNat : Int) - ('A'.toNat : Int) + 10

/-- JavaScript `parseInt(s)` with no radix argument: trims leading
whitespace, reads an optional sign, a `0x` prefix selects base 16,
then parses the longest leading digit run; `none` models NaN. -/
def jsParseInt (s : String) : Option Int :=
  let cs := s.toList.dropWhile isWsChar
  let signAndRest : Int × List Char :=
    match cs with
    | '+' :: r => (1, r)
    | '-' :: r => (-1, r)
    | r => (1, r)
  match signAndRest.2 with
  | '0' :: 'x' :: r =>
      let ds := r.takeWhile isHexDigitChar
      if ds.isEmpty then none
      else some (signAndRest.1 * ds.foldl (fun a c => a * 16 + hexDigitVal c) 0)
  | '0' :: 'X' :: r =>
      let ds := r.takeWhile isHexDigitChar
      if ds.isEmpty then none
      else some (signAndRest.1 * ds.foldl (fun a c => a * 16 + hexDigitVal c) 0)
  | r =>
      let ds := r.takeWhile isDigitChar
      if ds.isEmpty then none
      else some (signAndRest.1 * ds.foldl (fun a c => a * 10 + ((c.toNat : Int) - ('0'.toNat : Int))) 0)

/-- `xs[i]` on an array for an integer (or NaN) index: out-of-range and
NaN indexes give `undefined`. -/
def jsIndex (xs : List Js) (idx : Option Int) : Js :=
  match idx with
  | none => .undefined
  | some i => if i < 0 then .undefined else xs.getD i.toNat .undefined

/-- Loop body of `I18N.getValue`: walk the split path segments.  At an
array, a segment passing the `!isNaN` test indexes via `parseInt`; at a
plain object, descend through an own property; anything else (or a
missing property) yields the `null` sentinel.  Mirrors that the source
returns `undefined` when an array index misses on the final segment but
`null` on intermediate failures. -/
def getValueGo : Js → List String → Js
  | result, [] => result
  | result, key :: rest =>
      match result with
      | .arr xs =>
          if jsIsNumeric key then getValueGo (jsIndex xs (jsParseInt key)) rest
          else .null
      | .obj fields =>
          match lookupField fields key with
          | some v => getValueGo v rest
          | none => .null
      | _ => .null

/-- `s.split(sep)` for a single-character separator, over the character
list, accumulating the current segment in reverse. -/
def splitCharGo (sep : Char) : List Char → List Char → List String
  | [], acc => [String.mk acc.reverse]
  | c :: rest, acc =>
      if c = sep then String.mk acc.reverse :: splitCharGo sep rest []
      else splitCharGo sep rest (c :: acc)

/-- JavaScript `path.split('.')`. -/
def splitDot (path : String) : List String := splitCharGo '.' path.toList []

/-- `I18N.getValue(obj, path)`: dotted-path lookup.  A falsy (empty)
path returns the object unchanged; otherwise the path is split on `.`
and walked segment by segment. -/
def getValue (obj : Js) (path : String) : Js :=
  if path = "" then obj else getValueGo obj (splitDot path)

/-- The engine's process-wide state (the mutable fields of the `I18N`
object together with the browser state it reads and writes:
`localStorage.lang`, `navigator.language`, `document.documentElement.lang`,
and the dispatched `langchange` events). -/
structure I18nState where
  currentLang : Option String := none
  storedLang : Option String := none
  navigatorLang : Option String := none
  docLang : String := ""
  events : List String := []
  currentPage : Option String := none
  translations : List (String × Js) := []

/-- `this.translations[ns]`: `undefined` when the namespace was never
loaded. -/
def I18nState.getNs (st : I18nState) (ns : String) : Js :=
  match lookupField st.translations ns with
  | some v => v
  | none => .undefined

/-- `(navigator.language || 'zh')`, lowercased, classified by the
`zh` prefix test in `getCurrentLang`. -/
def browserLang (st : I18nState) : String :=
  let bl := match st.navigatorLang with
    | some l => if l = "" then "zh" else l
    | none => "zh"
  if bl.toLower.startsWith "zh" then "zh" else "en"

/-- The stored-preference / browser-detection tail of
`I18N.getCurrentLang` (the part below the in-memory cache check). -/
def getCurrentLangStored (st : I18nState) : String :=
  match st.storedLang with
  | some s => if s = "zh" || s = "en" then s else browserLang st
  | none => browserLang st

/-- The value returned by `I18N.getCurrentLang()`: the in-memory cache
when truthy, otherwise the stored preference if recognized, otherwise
browser detection. -/
def getCurrentLang (st : I18nState) : String :=
  match st.currentLang with
  | some l => if l = "" then getCurrentLangStored st else l
  | none => getCurrentLangStored st

/-- The state after `I18N.getCurrentLang()` has run (it caches its
result in `this.currentLang`). -/
def cacheLang (st : I18nState) : I18nState :=
  { st with currentLang := some (getCurrentLang st) }

/-- `I18N.setLang(lang)`: a no-op unless `lang` is `zh` or `en`; on
acceptance updates the in-memory cache, persists to `localStorage`,
sets `document.documentElement.lang` (`zh-CN` for `zh`), and dispatches
a `langchange` event carrying the code. -/
def setLang (st : I18nState) (lang : String) : I18nState :=
  if lang ≠ "zh" ∧ lang ≠ "en" then st
  else
    { st with
      currentLang := some lang
      storedLang := some lang
      docLang := if lang = "zh" then "zh-CN" else "en"
      events := st.events ++ [lang] }

/-- The not-found test used throughout `t`:
`result !== null && result !== undefined`. -/
def isFound : Js → Bool
  | .null => false
  | .undefined => false
  | _ => true

/-- The page-namespace priority list in the explicit-namespace branch
of `t`. -/
def pageNamespacesExplicit : List String :=
  ["solutions", "services", "index", "introduction", "contact"]

/-- The page-namespace priority list in the no-namespace branch of `t`. -/
def pageNamespacesImplicit : List String :=
  ["services", "solutions", "index", "introduction", "contact"]

/-- One of the fallback `for` loops of `t`: walk the namespace list,
skip namespaces whose gate fails, and return the first value passing
the found test. -/
def searchNs (st : I18nState) (key : String) (gate : String → Bool) :
    List String → Option Js
  | [] => none
  | ns :: rest =>
      if gate ns then
        let r := getValue (st.getNs ns) key
        if isFound r then some r else searchNs st key gate rest
      else searchNs st key gate rest

/-- The current-page step of the no-namespace branch of `t`:
`if (this.currentPage && this.translations[this.currentPage])`. -/
def currentPageHit (st : I18nState) (key : String) : Option Js :=
  match st.currentPage with
  | some p =>
      if p != "" && jsTruthy (st.getNs p) then
        let r := getValue (st.getNs p) key
        if isFound r then some r else none
      else none
  | none => none

/-- The no-namespace branch of `t`: current page namespace first, then
the fixed page-namespace list, then header, then footer (each gated on
the namespace being loaded truthy), else the key itself. -/
def tImplicit (st : I18nState) (key : String) : Js :=
  match currentPageHit st key with
  | some v => v
  | none =>
      match searchNs st key (fun ns => jsTruthy (st.getNs ns)) pageNamespacesImplicit with
      | some v => v
      | none =>
          match searchNs st key (fun ns => jsTruthy (st.getNs ns)) ["header", "footer"] with
          | some v => v
          | none => .str key

/-- The current-page fallback step of the explicit-namespace branch of
`t`: `if (this.currentPage && this.currentPage !== namespace)` (no
loaded-payload gate here). -/
def currentPageFallback (st : I18nState) (key nspace : String) : Option Js :=
  match st.currentPage with
  | some p =>
      if p != "" && p != nspace then
        let r := getValue (st.getNs p) key
        if isFound r then some r else none
      else none
  | none => none

/-- The explicit-namespace branch of `t`: the named namespace first,
then the current page, then the explicit-order page list (skipping the
named namespace, gated on loaded truthy), then header and footer
(ungated), else the key itself. -/
def tExplicit (st : I18nState) (key nspace : String) : Js :=
  let r0 := getValue (st.getNs nspace) key
  if isFound r0 then r0
  else
    match currentPageFallback st key nspace with
    | some v => v
    | none =>
        match searchNs st key (fun ns => ns != nspace && jsTruthy (st.getNs ns)) pageNamespacesExplicit with
        | some v => v
        | none =>
            match searchNs st key (fun _ => true) ["header", "footer"] with
            | some v => v
            | none => .str key

/-- `I18N.t(key, namespace)`: a falsy (absent or empty) namespace
argument selects the no-namespace branch. -/
def t (st : I18nState) (key : String) (nsOpt : Option String) : Js :=
  match nsOpt with
  | some nspace => if nspace = "" then tImplicit st key else tExplicit st key nspace
  | none => tImplicit st key

/-- Outcome of one `fetch` of a translation file. -/
inductive FetchResult where
  | success (payload : Js)
  | notOk
  | failure

/-- `I18N.loadTranslation(name)` given the fetch outcomes: a non-ok
response throws into the `catch`, and a network or JSON-parse failure
rejects into the `catch`; both degrade to an empty payload. -/
def loadTranslation (fetch : String → FetchResult) (name : String) : Js :=
  match fetch name with
  | .success p => p
  | .notOk => .obj []
  | .failure => .obj []

/-- `results[i] || {}` in `loadTranslations`. -/
def jsOrEmptyObj (v : Js) : Js := if jsTruthy v then v else .obj []

/-- The `names.forEach((name, i) => this.translations[name] = results[i] || {})`
loop of `loadTranslations`, processing names in order. -/
def applyLoads (fetch : String → FetchResult) :
    List String → List (String × Js) → List (String × Js)
  | [], tr => tr
  | n :: rest, tr =>
      applyLoads fetch rest (setField tr n (jsOrEmptyObj (loadTranslation fetch n)))

/-- `I18N.loadTranslations(names)`: all fetches are issued and awaited
via `Promise.all` (which preserves positional correspondence), then the
registry entry for each requested name is set from its own result. -/
def loadTranslations (fetch : String → FetchResult) (names : List String)
    (st : I18nState) : I18nState :=
  { st with translations := applyLoads fetch names st.translations }

/-- Character class of the regex `/([^\:\\\/]+)\.html/i`: anything but
colon, backslash, slash. -/
def isPathChar (c : Char) : Bool := c != ':' && c != '\\' && c != '/'

/-- Whether the character list starts with `.html`, case-insensitively
(the regex carries the `i` flag). -/
def startsWithDotHtml : List Char → Bool
  | c1 :: c2 :: c3 :: c4 :: c5 :: _ =>
      c1 = '.' && c2.toLower = 'h' && c3.toLower = 't' && c4.toLower = 'm' && c5.toLower = 'l'
  | _ => false

/-- Greedy capture of `([^\:\\\/]+)` at the current start position: the
longest class-character run after which `.html` follows; `none` when no
match starts here. -/
def greedyCapture (cs : List Char) : Option (List Char) :=
  let n := (cs.takeWhile isPathChar).length
  (List.range n).reverse.findSome? fun l0 =>
    let len := l0 + 1
    if startsWithDotHtml (cs.drop len) then some (cs.take len) else none

/-- `path.match(/([^\:\\\/]+)\.html/i)`: leftmost start position wins,
greedy capture group. -/
def findHtmlMatch : List Char → Option (List Char)
  | [] => none
  | c :: rest =>
      match greedyCapture (c :: rest) with
      | some g => some g
      | none => findHtmlMatch rest

/-- The identical `pageMap` allow-lists in both branches of
`getPageName`: known identifiers map to themselves, anything else to
`index`. -/
def pageMap (page : String) : String :=
  if page = "index" || page = "services" || page = "solutions" ||
     page = "introduction" || page = "contact" then page else "index"

/-- `path.replace(/\/$/, '')`: remove one trailing slash. -/
def stripTrailingSlash (cs : List Char) : List Char :=
  match cs.reverse with
  | '/' :: rest => rest.reverse
  | _ => cs

/-- `cleanPath.split('/')`, reusing the split-accumulator on `/`. -/
def splitSlash (cs : List Char) : List String :=
  splitCharGo '/' cs []

/-- `I18N.getPageName()` as a function of `window.location.pathname`:
a `.html` match extracts and lowercases the base name and maps it
through the allow-list; otherwise the trailing slash is stripped, an
empty or root path yields `index`, and the last path segment
(`segments[segments.length - 1]`) is mapped through the allow-list. -/
def getPageName (path : String) : String :=
  match findHtmlMatch path.toList with
  | some g => pageMap (String.mk (g.map Char.toLower))
  | none =>
      let cleanPath := stripTrailingSlash path.toList
      if cleanPath = [] || cleanPath = ['/'] then "index"
      else pageMap ((splitSlash cleanPath).getLastD "")

mutual

/-- The DOM string coercion applied by `textContent`/`setAttribute`
assignment (JavaScript ToString on the modelled value domain; array
elements that are null or undefined join as empty strings). -/
def jsToDomString : Js → String
  | .null => "null"
  | .undefined => "undefined"
  | .bool b => if b then "true" else "false"
  | .num n => toString n
  | .str s => s
  | .arr xs => jsArrJoin xs
  | .obj _ => "[object Object]"

/-- `Array.prototype.toString`, i.e. `join(',')`. -/
def jsArrJoin : List Js → String
  | [] => ""
  | [x] => jsJoinElem x
  | x :: rest => jsJoinElem x ++ "," ++ jsArrJoin rest

/-- One element of an array join: null and undefined render empty. -/
def jsJoinElem : Js → String
  | .null => ""
  | .undefined => ""
  | x => jsToDomString x

end

/-- Strict equality `value === key` between a runtime value and the
key string. -/
def jsStrictEqStr (v : Js) (key : String) : Bool :=
  match v with
  | .str s => s == key
  | _ => false

/-- A DOM element as seen by `applyTranslations`: the translation
marker attributes it carries (read-only inputs) and the writable
observable state (text content, inner markup, written attributes,
language-switcher active class). -/
structure Element where
  i18nKey : Option String := none
  i18nHtmlKey : Option String := none
  nsAttr : Option String := none
  attrKey : Option String := none
  placeholderKey : Option String := none
  titleKey : Option String := none
  altKey : Option String := none
  dataLang : Option String := none
  inSwitcher : Bool := false
  text : String := ""
  html : String := ""
  attrs : List (String × String) := []
  active : Bool := false
deriving Repr

/-- New text content of an element after the `[data-i18n]` loop: write
`t(key, namespace)` only when the resolved value differs from the raw
key. -/
def newText (st : I18nState) (e : Element) : String :=
  match e.i18nKey with
  | some key =>
      let v := t st key e.nsAttr
      if jsStrictEqStr v key then e.text else jsToDomString v
  | none => e.text

/-- New inner markup after the `[data-i18n-html]` loop. -/
def newHtml (st : I18nState) (e : Element) : String :=
  match e.i18nHtmlKey with
  | some key =>
      let v := t st key e.nsAttr
      if jsStrictEqStr v key then e.html else jsToDomString v
  | none => e.html

/-- One attribute-marker pass (`data-i18n-attr` / `-placeholder` /
`-title` / `-alt`): `setAttribute(attrName, value)` only when the
resolved value differs from the raw key. -/
def applyOneAttr (st : I18nState) (nsAttr : Option String) (attrName : String)
    (keyOpt : Option String) (a : List (String × String)) : List (String × String) :=
  match keyOpt with
  | some key =>
      let v := t st key nsAttr
      if jsStrictEqStr v key then a else setField a attrName (jsToDomString v)
  | none => a

/-- The four attribute-marker passes in source order. -/
def newAttrs (st : I18nState) (e : Element) (a : List (String × String)) :
    List (String × String) :=
  applyOneAttr st e.nsAttr "alt" e.altKey
    (applyOneAttr st e.nsAttr "title" e.titleKey
      (applyOneAttr st e.nsAttr "placeholder" e.placeholderKey
        (applyOneAttr st e.nsAttr "attr" e.attrKey a)))

/-- `classList.toggle('active', btn.getAttribute('data-lang') === getCurrentLang())`
for elements matched by `.lang-switcher [data-lang]`. -/
def newActive (st : I18nState) (e : Element) : Bool :=
  if e.inSwitcher then
    match e.dataLang with
    | some l => l == getCurrentLang st
    | none => e.active
  else e.active

/-- The net effect of `I18N.applyTranslations` on one element: marker
attributes are never mutated; text content, inner markup, the four
writable attributes and the switcher active class are recomputed from
the markers and the registry. -/
def applyElement (st : I18nState) (e : Element) : Element :=
  { e with
    text := newText st e
    html := newHtml st e
    attrs := newAttrs st e e.attrs
    active := newActive st e }

/-- `I18N.applyTranslations(root)` over a scope modelled as the list of
elements in the subtree: each element is rewritten independently (the
source's per-marker loops write disjoint per-element fields). -/
def applyTranslations (st : I18nState) (dom : List Element) : List Element :=
  dom.map (applyElement st)

/-- Digits-only parse of a segment as a non-negative integer (the
plain reading of the spec's "the segment parses as a non-negative
integer"). -/
def parseNonNegInt (seg : String) : Option Nat :=
  let cs := seg.toList
  if !cs.isEmpty && cs.all isDigitChar then
    some (cs.foldl (fun a c => a * 10 + (c.toNat - '0'.toNat)) 0)
  else none

/-- Modelled from the spec (4.4 Key Resolver), segment walk: "if the
current value is a sequence and the segment parses as a non-negative
integer, index into it; otherwise, if the current value is a mapping
and contains the segment as a key, descend into it; otherwise the
lookup fails"; the walk "stops and returns not-found the moment any
intermediate value is not an indexable/mapping structure". -/
def lookupSpecGo : Js → List String → Js
  | v, [] => v
  | v, seg :: rest =>
      match v with
      | .arr xs =>
          match parseNonNegInt seg with
          | some n =>
              match xs.get? n with
              | some x => lookupSpecGo x rest
              | none => .null
          | none => .null
      | .obj fields =>
          match lookupField fields seg with
          | some x => lookupSpecGo x rest
          | none => .null
      | _ => .null

/-- Modelled from the spec (4.4 Key Resolver): "split the path on the
separator and walk it segment by segment"; "an empty path returns the
payload itself unchanged". -/
def lookupSpec (payload : Js) (path : String) : Js :=
  if path = "" then payload else lookupSpecGo payload (splitDot path)

/-- The amended reference walk: the array clause uses the source's
actual numeric test (JS `!isNaN`) and indexes at `parseInt`'s
leading-integer parse, with NaN, negative or out-of-range indexes
failing; all other clauses are the spec's. -/
def lookupSpecAmendedGo : Js → List String → Js
  | v, [] => v
  | v, seg :: rest =>
      match v with
      | .arr xs =>
          if jsIsNumeric seg then
            match jsParseInt seg with
            | some i =>
                if i < 0 then .null
                else
                  match xs.get? i.toNat with
                  | some x => lookupSpecAmendedGo x rest
                  | none => .null
            | none => .null
          else .null
      | .obj fields =>
          match lookupField fields seg with
          | some x => lookupSpecAmendedGo x rest
          | none => .null
      | _ => .null

/-- The amended reference resolver. -/
def lookupSpecAmended (payload : Js) (path : String) : Js :=
  if path = "" then payload else lookupSpecAmendedGo payload (splitDot path)

/-- Observational equality of lookup results: equal, or both the
not-found sentinel (the source uses both `null` and `undefined` as
sentinel values; callers only test `!== null && !== undefined`). -/
def jsObsEq (a b : Js) : Prop :=
  (isFound a = false ∧ isFound b = false) ∨ a = b

/-- The optional attribute value one attribute-marker pass would write. -/
def attrWrite (st : I18nState) (nsAttr : Option String) (keyOpt : Option String) :
    Option String :=
  match keyOpt with
  | some key =>
      let v := t st key nsAttr
      if jsStrictEqStr v key then none else some (jsToDomString v)
  | none => none

/-- Registry with a key in both the current page payload and the
footer payload, with different values. -/
def stC1 : I18nState :=
  { currentPage := some "services"
    translations := [("services", .obj [("k", .str "page")]),
                     ("footer", .obj [("k", .str "foot")])] }

/-- Registry whose current page payload is loaded but misses the key,
with the key present only in the footer payload. -/
def stC1b : I18nState :=
  { currentPage := some "services"
    translations := [("services", .obj []),
                     ("footer", .obj [("k", .str "foot")])] }

/-- Registry in which the current page stores the empty string for a
key that the footer stores non-empty. -/
def stC2 : I18nState :=
  { currentPage := some "services"
    translations := [("services", .obj [("cta", .str "")]),
                     ("footer", .obj [("cta", .str "full")])] }

/-- Registry in which the current page stores JSON null for a key that
the footer stores non-empty. -/
def stC2b : I18nState :=
  { currentPage := some "contact"
    translations := [("contact", .obj [("cta", .null)]),
                     ("footer", .obj [("cta", .str "full")])] }

/-- Fetch outcomes where only the `contact` file loads. -/
def fetchW : String → FetchResult := fun n =>
  if n = "contact" then .success (.obj [("x", .str "v")]) else .notOk

/-- Registry with a loaded current page payload, for the empty-key
observation. -/
def stC9 : I18nState :=
  { currentPage := some "index"
    translations := [("index", .obj [("a", .num 1)])] }

/-- Registry with a key present only in the `services` and `solutions`
payloads and a current page (`contact`) whose payload misses it. -/
def stC10 : I18nState :=
  { currentPage := some "contact"
    translations := [("contact", .obj []),
                     ("services", .obj [("k", .str "from-services")]),
                     ("solutions", .obj [("k", .str "from-solutions")])] }

theorem isFound_of_truthy {v : Js} (h : jsTruthy v = true) : isFound v = true := by
  cases v <;> simp_all [jsTruthy, isFound]

theorem searchNs_head_found (st : I18nState) (key : String) (gate : String → Bool)
    (hd : String) (tl : List String) (hg : gate hd = true)
    (hf : isFound (getValue (st.getNs hd) key) = true) :
    searchNs st key gate (hd :: tl) = some (getValue (st.getNs hd) key) := by
  simp [searchNs, hg, hf]

theorem searchNs_skip (st : I18nState) (key : String) (gate : String → Bool)
    (hd : String) (tl : List String)
    (h : gate hd = false ∨ isFound (getValue (st.getNs hd) key) = false) :
    searchNs st key gate (hd :: tl) = searchNs st key gate tl := by
  rcases h with hg | hf
  · simp [searchNs, hg]
  · cases hg : gate hd <;> simp [searchNs, hg, hf]

theorem searchNs_none (st : I18nState) (key : String) (gate : String → Bool)
    (l : List String)
    (h : ∀ ns ∈ l, gate ns = false ∨ isFound (getValue (st.getNs ns) key) = false) :
    searchNs st key gate l = none := by
  induction l with
  | nil => rfl
  | cons hd tl ih =>
      rw [searchNs_skip st key gate hd tl (h hd (by simp))]
      exact ih fun ns hns => h ns (by simp [hns])

theorem currentPageHit_some (st : I18nState) (key p : String)
    (hp : st.currentPage = some p) (hpne : p ≠ "")
    (htr : jsTruthy (st.getNs p) = true)
    (hf : isFound (getValue (st.getNs p) key) = true) :
    currentPageHit st key = some (getValue (st.getNs p) key) := by
  simp [currentPageHit, hp, hpne, htr, hf]

theorem currentPageHit_none (st : I18nState) (key : String)
    (h : ∀ p, st.currentPage = some p → isFound (getValue (st.getNs p) key) = false) :
    currentPageHit st key = none := by
  unfold currentPageHit
  cases hp : st.currentPage with
  | none => rfl
  | some p =>
      have hmiss := h p hp
      cases hc : (p != "" && jsTruthy (st.getNs p)) <;> simp [hc, hmiss]

theorem lookupField_setField_self {α : Type} (a : List (String × α)) (k : String) (v : α) :
    lookupField (setField a k v) k = some v := by
  induction a with
  | nil => simp [setField, lookupField]
  | cons hd tl ih =>
      obtain ⟨k2, w⟩ := hd
      by_cases h : k2 = k <;> simp [setField, lookupField, h, ih]

theorem lookupField_setField_other {α : Type} (a : List (String × α)) (k k2 : String)
    (v : α) (h : k2 ≠ k) :
    lookupField (setField a k2 v) k = lookupField a k := by
  induction a with
  | nil => simp [setField, lookupField, h]
  | cons hd tl ih =>
      obtain ⟨k3, w⟩ := hd
      by_cases h3 : k3 = k2 <;> simp [setField, lookupField, h3, ih, h]

theorem setField_of_lookup_eq {α : Type} (a : List (String × α)) (k : String) (v : α)
    (h : lookupField a k = some v) : setField a k v = a := by
  induction a with
  | nil => simp [lookupField] at h
  | cons hd tl ih =>
      obtain ⟨k2, w⟩ := hd
      by_cases h2 : k2 = k
      · subst h2
        simp [lookupField] at h
        simp [setField, h]
      · simp [lookupField, h2] at h
        simp [setField, h2, ih h]

theorem lookupField_applyLoads_notmem (fetch : String → FetchResult)
    (names : List String) (tr : List (String × Js)) (n : String) (h : n ∉ names) :
    lookupField (applyLoads fetch names tr) n = lookupField tr n := by
  induction names generalizing tr with
  | nil => rfl
  | cons hd tl ih =>
      rw [applyLoads, ih _ (fun hmem => h (by simp [hmem])),
        lookupField_setField_other _ _ _ _ (fun he => h (by simp [he]))]

theorem applyLoads_lookup (fetch : String → FetchResult) (names : List String)
    (tr : List (String × Js)) (hnd : names.Nodup) (i : Nat) (h : i < names.length) :
    lookupField (applyLoads fetch names tr) (names.get ⟨i, h⟩) =
      some (jsOrEmptyObj (loadTranslation fetch (names.get ⟨i, h⟩))) := by
  induction names generalizing tr i with
  | nil => simp at h
  | cons hd tl ih =>
      cases i with
      | zero =>
          have hnin : hd ∉ tl := (List.nodup_cons.mp hnd).1
          show lookupField (applyLoads fetch (hd :: tl) tr) hd = _
          rw [applyLoads, lookupField_applyLoads_notmem _ _ _ _ hnin,
            lookupField_setField_self]
          rfl
      | succ j =>
          rw [applyLoads]
          exact ih _ (List.nodup_cons.mp hnd).2 j (Nat.lt_of_succ_lt_succ h)

theorem isFound_getValueGo_undef (l : List String) :
    isFound (getValueGo .undefined l) = false := by
  cases l <;> rfl

theorem isFound_getValueGo_null (l : List String) :
    isFound (getValueGo .null l) = false := by
  cases l <;> rfl

theorem getValueGo_obsEq_amended (segs : List String) (v : Js) :
    jsObsEq (getValueGo v segs) (lookupSpecAmendedGo v segs) := by
  induction segs generalizing v with
  | nil => exact Or.inr rfl
  | cons seg rest ih =>
      cases v with
      | arr xs =>
          show jsObsEq (getValueGo (.arr xs) (seg :: rest)) _
          rw [getValueGo, lookupSpecAmendedGo]
          cases hnum : jsIsNumeric seg
          · exact Or.inr rfl
          · simp only
            cases hpi : jsParseInt seg with
            | none =>
                simp only [jsIndex]
                exact Or.inl ⟨isFound_getValueGo_undef rest, rfl⟩
            | some i =>
                by_cases hneg : i < 0
                · simp only [jsIndex, if_pos hneg]
                  exact Or.inl ⟨isFound_getValueGo_undef rest, rfl⟩
                · simp only [jsIndex, if_neg hneg]
                  cases hget : xs.get? i.toNat with
                  | none =>
                      rw [List.getD_eq_getElem?_getD, ← List.get?_eq_getElem?, hget]
                      exact Or.inl ⟨isFound_getValueGo_undef rest, rfl⟩
                  | some x =>
                      rw [List.getD_eq_getElem?_getD, ← List.get?_eq_getElem?, hget]
                      exact ih x
      | obj fields =>
          show jsObsEq (getValueGo (.obj fields) (seg :: rest)) _
          rw [getValueGo, lookupSpecAmendedGo]
          cases hlk : lookupField fields seg with
          | none => exact Or.inr rfl
          | some x => exact ih x
      | null => exact Or.inr rfl
      | undefined => exact Or.inr rfl
      | bool b => exact Or.inr rfl
      | num n => exact Or.inr rfl
      | str s => exact Or.inr rfl

theorem zhEn_ne_empty (c : Prop) [Decidable c] : (if c then "zh" else "en") ≠ ("" : String) := by
  split <;> simp

theorem browserLang_ne_empty (st : I18nState) : browserLang st ≠ "" := by
  unfold browserLang
  split
  · exact zhEn_ne_empty _
  · exact zhEn_ne_empty _

theorem getCurrentLangStored_ne_empty (st : I18nState) : getCurrentLangStored st ≠ "" := by
  unfold getCurrentLangStored
  cases hs : st.storedLang with
  | none => exact browserLang_ne_empty st
  | some s =>
      by_cases h1 : s = "zh"
      · simp [h1]
      · by_cases h2 : s = "en"
        · simp [h1, h2]
        · simpa [h1, h2] using browserLang_ne_empty st

theorem getCurrentLang_ne_empty (st : I18nState) : getCurrentLang st ≠ "" := by
  unfold getCurrentLang
  cases hc : st.currentLang with
  | none => exact getCurrentLangStored_ne_empty st
  | some l =>
      by_cases hl : l = ""
      · simpa [hl] using getCurrentLangStored_ne_empty st
      · simp [hl]

theorem getCurrentLang_cacheLang (st : I18nState) :
    getCurrentLang (cacheLang st) = getCurrentLang st := by
  show (match some (getCurrentLang st) with
        | some l => if l = "" then getCurrentLangStored (cacheLang st) else l
        | none => getCurrentLangStored (cacheLang st)) = getCurrentLang st
  simp [getCurrentLang_ne_empty st]

theorem t_cacheLang (st : I18nState) (key : String) (nsOpt : Option String) :
    t (cacheLang st) key nsOpt = t st key nsOpt := by
  cases nsOpt <;> rfl

theorem applyOneAttr_eq (st : I18nState) (nsAttr : Option String) (attrName : String)
    (keyOpt : Option String) (a : List (String × String)) :
    applyOneAttr st nsAttr attrName keyOpt a =
      match attrWrite st nsAttr keyOpt with
      | some w => setField a attrName w
      | none => a := by
  unfold applyOneAttr attrWrite
  cases keyOpt with
  | none => rfl
  | some key => cases h : jsStrictEqStr (t st key nsAttr) key <;> simp [h]

theorem lookup_applyOneAttr_other (st : I18nState) (nsAttr : Option String)
    (attrName : String) (keyOpt : Option String) (a : List (String × String))
    (k : String) (h : k ≠ attrName) :
    lookupField (applyOneAttr st nsAttr attrName keyOpt a) k = lookupField a k := by
  rw [applyOneAttr_eq]
  cases attrWrite st nsAttr keyOpt with
  | none => rfl
  | some w => exact lookupField_setField_other _ _ _ _ (Ne.symm h)

theorem lookup_applyOneAttr_self (st : I18nState) (nsAttr : Option String)
    (attrName : String) (keyOpt : Option String) (a : List (String × String))
    (w : String) (hw : attrWrite st nsAttr keyOpt = some w) :
    lookupField (applyOneAttr st nsAttr attrName keyOpt a) attrName = some w := by
  rw [applyOneAttr_eq, hw]
  exact lookupField_setField_self _ _ _

theorem applyOneAttr_already (st : I18nState) (nsAttr : Option String)
    (attrName : String) (keyOpt : Option String) (a : List (String × String))
    (h : ∀ w, attrWrite st nsAttr keyOpt = some w → lookupField a attrName = some w) :
    applyOneAttr st nsAttr attrName keyOpt a = a := by
  rw [applyOneAttr_eq]
  cases hw : attrWrite st nsAttr keyOpt with
  | none => rfl
  | some w => exact setField_of_lookup_eq _ _ _ (h w hw)

theorem newAttrs_idem (st : I18nState) (e : Element) (a : List (String × String)) :
    newAttrs st e (newAttrs st e a) = newAttrs st e a := by
  unfold newAttrs
  have hattr : applyOneAttr st e.nsAttr "attr" e.attrKey (newAttrs st e a) = newAttrs st e a := by
    apply applyOneAttr_already
    intro w hw
    unfold newAttrs
    rw [lookup_applyOneAttr_other _ _ _ _ _ _ (by decide),
      lookup_applyOneAttr_other _ _ _ _ _ _ (by decide),
      lookup_applyOneAttr_other _ _ _ _ _ _ (by decide)]
    exact lookup_applyOneAttr_self _ _ _ _ _ _ hw
  have hph : applyOneAttr st e.nsAttr "placeholder" e.placeholderKey (newAttrs st e a) = newAttrs st e a := by
    apply applyOneAttr_already
    intro w hw
    unfold newAttrs
    rw [lookup_applyOneAttr_other _ _ _ _ _ _ (by decide),
      lookup_applyOneAttr_other _ _ _ _ _ _ (by decide)]
    exact lookup_applyOneAttr_self _ _ _ _ _ _ hw
  have hti : applyOneAttr st e.nsAttr "title" e.titleKey (newAttrs st e a) = newAttrs st e a := by
    apply applyOneAttr_already
    intro w hw
    unfold newAttrs
    rw [lookup_applyOneAttr_other _ _ _ _ _ _ (by decide)]
    exact lookup_applyOneAttr_self _ _ _ _ _ _ hw
  have hal : applyOneAttr st e.nsAttr "alt" e.altKey (newAttrs st e a) = newAttrs st e a := by
    apply applyOneAttr_already
    intro w hw
    unfold newAttrs
    exact lookup_applyOneAttr_self _ _ _ _ _ _ hw
  show applyOneAttr st e.nsAttr "alt" e.altKey
      (applyOneAttr st e.nsAttr "title" e.titleKey
        (applyOneAttr st e.nsAttr "placeholder" e.placeholderKey
          (applyOneAttr st e.nsAttr "attr" e.attrKey (newAttrs st e a)))) = newAttrs st e a
  rw [hattr, hph, hti, hal]

theorem newText_stable (st : I18nState) (e2 e : Element)
    (hk : e2.i18nKey = e.i18nKey) (hns : e2.nsAttr = e.nsAttr)
    (htext : e2.text = newText st e) :
    newText st e2 = newText st e := by
  unfold newText
  rw [hk, hns]
  cases hk2 : e.i18nKey with
  | none => simpa [newText, hk2] using htext
  | some key =>
      cases hc : jsStrictEqStr (t st key e.nsAttr) key
      · simp [newText, hk2, hc]
      · simpa [newText, hk2, hc] using htext

theorem newHtml_stable (st : I18nState) (e2 e : Element)
    (hk : e2.i18nHtmlKey = e.i18nHtmlKey) (hns : e2.nsAttr = e.nsAttr)
    (hhtml : e2.html = newHtml st e) :
    newHtml st e2 = newHtml st e := by
  unfold newHtml
  rw [hk, hns]
  cases hk2 : e.i18nHtmlKey with
  | none => simpa [newHtml, hk2] using hhtml
  | some key =>
      cases hc : jsStrictEqStr (t st key e.nsAttr) key
      · simp [newHtml, hk2, hc]
      · simpa [newHtml, hk2, hc] using hhtml

theorem newActive_stable (st : I18nState) (e2 e : Element)
    (hsw : e2.inSwitcher = e.inSwitcher) (hdl : e2.dataLang = e.dataLang)
    (hact : e2.active = newActive st e) :
    newActive st e2 = newActive st e := by
  unfold newActive
  rw [hsw, hdl]
  cases hs : e.inSwitcher
  · simpa [newActive, hs] using hact
  · cases hd : e.dataLang
    · simpa [newActive, hs, hd] using hact
    · simp [newActive, hs, hd]

theorem applyElement_idem (st : I18nState) (e : Element) :
    applyElement st (applyElement st e) = applyElement st e := by
  have hT : newText st (applyElement st e) = newText st e :=
    newText_stable st (applyElement st e) e rfl rfl rfl
  have hH : newHtml st (applyElement st e) = newHtml st e :=
    newHtml_stable st (applyElement st e) e rfl rfl rfl
  have hA : newActive st (applyElement st e) = newActive st e :=
    newActive_stable st (applyElement st e) e rfl rfl rfl
  have hAt : newAttrs st (applyElement st e) (newAttrs st e e.attrs) = newAttrs st e e.attrs := by
    have hsame : newAttrs st (applyElement st e) = newAttrs st e := rfl
    rw [hsame]
    exact newAttrs_idem st e e.attrs
  show ({ applyElement st e with
      text := newText st (applyElement st e)
      html := newHtml st (applyElement st e)
      attrs := newAttrs st (applyElement st e) (newAttrs st e e.attrs)
      active := newActive st (applyElement st e) } : Element) = applyElement st e
  rw [hT, hH, hA, hAt]
  rfl

theorem applyElement_cacheLang (st : I18nState) (e : Element) :
    applyElement (cacheLang st) e = applyElement st e := by
  have hA : newActive (cacheLang st) e = newActive st e := by
    unfold newActive
    rw [getCurrentLang_cacheLang]
  show ({ e with
      text := newText (cacheLang st) e
      html := newHtml (cacheLang st) e
      attrs := newAttrs (cacheLang st) e e.attrs
      active := newActive (cacheLang st) e } : Element) = applyElement st e
  rw [hA, show newText (cacheLang st) e = newText st e from rfl,
    show newHtml (cacheLang st) e = newHtml st e from rfl,
    show newAttrs (cacheLang st) e e.attrs = newAttrs st e e.attrs from rfl]
  rfl

theorem currentPageFallback_none (st : I18nState) (key nspace : String)
    (h : ∀ p, st.currentPage = some p → isFound (getValue (st.getNs p) key) = false) :
    currentPageFallback st key nspace = none := by
  unfold currentPageFallback
  cases hp : st.currentPage with
  | none => rfl
  | some p =>
      cases hc : (p != "" && p != nspace) <;> simp [hc, h p hp]

theorem tImplicit_eq_of_cpn (st : I18nState) (key : String)
    (h : currentPageHit st key = none) :
    tImplicit st key =
      (match searchNs st key (fun ns => jsTruthy (st.getNs ns)) pageNamespacesImplicit with
       | some v => v
       | none =>
          match searchNs st key (fun ns => jsTruthy (st.getNs ns)) ["header", "footer"] with
          | some v => v
          | none => .str key) := by
  unfold tImplicit
  rw [h]

/-- C1: with no explicit namespace, `t` consults the current page's
namespace first, then the fixed page-namespace priority list, then the
header namespace, then the footer namespace; in particular a key found
in the current page's payload is answered from it, regardless of any
footer value, and the footer is only reached after every earlier
namespace misses. -/
theorem c1_no_namespace_fallback_order (st : I18nState) (key p : String)
    (hp : st.currentPage = some p) (hpne : p ≠ "")
    (htr : jsTruthy (st.getNs p) = true) :
    (isFound (getValue (st.getNs p) key) = true →
      t st key none = getValue (st.getNs p) key)
  ∧ (isFound (getValue (st.getNs p) key) = false →
     jsTruthy (st.getNs "services") = true →
     isFound (getValue (st.getNs "services") key) = true →
      t st key none = getValue (st.getNs "services") key)
  ∧ (isFound (getValue (st.getNs p) key) = false →
     (∀ ns ∈ pageNamespacesImplicit, isFound (getValue (st.getNs ns) key) = false) →
     jsTruthy (st.getNs "header") = true →
     isFound (getValue (st.getNs "header") key) = true →
      t st key none = getValue (st.getNs "header") key)
  ∧ (isFound (getValue (st.getNs p) key) = false →
     (∀ ns ∈ pageNamespacesImplicit, isFound (getValue (st.getNs ns) key) = false) →
     isFound (getValue (st.getNs "header") key) = false →
     jsTruthy (st.getNs "footer") = true →
     isFound (getValue (st.getNs "footer") key) = true →
      t st key none = getValue (st.getNs "footer") key) := by
  have hcpn : isFound (getValue (st.getNs p) key) = false →
      currentPageHit st key = none := fun hmiss =>
    currentPageHit_none st key fun p2 hp2 => by
      rw [hp] at hp2
      cases hp2
      exact hmiss
  refine ⟨?_, ?_, ?_, ?_⟩
  · intro hf
    show tImplicit st key = _
    unfold tImplicit
    rw [currentPageHit_some st key p hp hpne htr hf]
  · intro hmiss hstr hsf
    show tImplicit st key = _
    rw [tImplicit_eq_of_cpn st key (hcpn hmiss),
      show pageNamespacesImplicit =
        "services" :: ["solutions", "index", "introduction", "contact"] from rfl,
      searchNs_head_found st key _ "services" _ hstr hsf]
  · intro hmiss hall htrh hfh
    show tImplicit st key = _
    rw [tImplicit_eq_of_cpn st key (hcpn hmiss),
      searchNs_none st key _ pageNamespacesImplicit (fun ns hns => Or.inr (hall ns hns)),
      show ["header", "footer"] = "header" :: ["footer"] from rfl,
      searchNs_head_found st key _ "header" _ htrh hfh]
  · intro hmiss hall hmh htrf hff
    show tImplicit st key = _
    rw [tImplicit_eq_of_cpn st key (hcpn hmiss),
      searchNs_none st key _ pageNamespacesImplicit (fun ns hns => Or.inr (hall ns hns)),
      show ["header", "footer"] = "header" :: ["footer"] from rfl,
      searchNs_skip st key _ "header" _ (Or.inr hmh),
      show ["footer"] = "footer" :: [] from rfl,
      searchNs_head_found st key _ "footer" _ htrf hff]

/-- Witness for C1 at concrete registries: the current page value wins
over a differing footer value, and the footer value is produced when
the current page and all page namespaces miss. -/
theorem c1_witness :
    t stC1 "k" none = Js.str "page" ∧ t stC1b "k" none = Js.str "foot" := by
  constructor
  · exact (c1_no_namespace_fallback_order stC1 "k" "services" rfl (by decide) rfl).1 rfl
  · exact (c1_no_namespace_fallback_order stC1b "k" "services" rfl (by decide)
      rfl).2.2.2 rfl (by decide) rfl rfl rfl

/-- C2 counterexample: the claim says an empty value stored in an
earlier-consulted namespace does not stop the search, but when the
current page stores the empty string for `cta` and the footer stores
`"full"`, `t` returns the empty string from the current page, not the
later non-empty footer value. -/
theorem c2_counterexample :
    t stC2 "cta" none = Js.str "" ∧ Js.str "" ≠ Js.str "full" := by
  refine ⟨rfl, ?_⟩
  intro h
  injection h with h2
  exact absurd h2 (by decide)

/-- C2 (amended): resolution returns the first result that is not the
null/undefined sentinel; a stored empty string is such a result, so it
stops the search and is returned, while a stored JSON null is
indistinguishable from not-found and the search continues to later
namespaces. -/
theorem c2_amended_first_non_sentinel_wins (st : I18nState) (key p : String)
    (hp : st.currentPage = some p) (hpne : p ≠ "")
    (htr : jsTruthy (st.getNs p) = true) :
    (getValue (st.getNs p) key = Js.str "" → t st key none = Js.str "")
  ∧ (getValue (st.getNs p) key = Js.null →
     (∀ ns ∈ pageNamespacesImplicit, isFound (getValue (st.getNs ns) key) = false) →
     isFound (getValue (st.getNs "header") key) = false →
     jsTruthy (st.getNs "footer") = true →
     isFound (getValue (st.getNs "footer") key) = true →
      t st key none = getValue (st.getNs "footer") key) := by
  constructor
  · intro hv
    show tImplicit st key = _
    unfold tImplicit
    rw [currentPageHit_some st key p hp hpne htr (by rw [hv]; rfl), hv]
  · intro hv hall hmh htrf hff
    have hcpn : currentPageHit st key = none :=
      currentPageHit_none st key fun p2 hp2 => by
        rw [hp] at hp2
        cases hp2
        rw [hv]
        rfl
    show tImplicit st key = _
    rw [tImplicit_eq_of_cpn st key hcpn,
      searchNs_none st key _ pageNamespacesImplicit (fun ns hns => Or.inr (hall ns hns)),
      show ["header", "footer"] = "header" :: ["footer"] from rfl,
      searchNs_skip st key _ "header" _ (Or.inr hmh),
      show ["footer"] = "footer" :: [] from rfl,
      searchNs_head_found st key _ "footer" _ htrf hff]

/-- Witness for the amended C2: the stored empty string is returned
from the current page, and a stored JSON null lets the search continue
to the footer. -/
theorem c2_witness :
    t stC2 "cta" none = Js.str "" ∧ t stC2b "cta" none = Js.str "full" := by
  constructor
  · exact (c2_amended_first_non_sentinel_wins stC2 "cta" "services" rfl (by decide) rfl).1 rfl
  · exact (c2_amended_first_non_sentinel_wins stC2b "cta" "contact" rfl (by decide)
      rfl).2 rfl (by decide) rfl rfl rfl

/-- C3 counterexample: on the payload `["a","b"]` and path `1e1`, the
source resolver accepts the segment via the `!isNaN` test and indexes
at `parseInt` of it, returning element 1, while the spec's reference
definition (segment parses as a non-negative integer) fails the
lookup; the results are not even observationally equal. -/
theorem c3_counterexample :
    getValue (Js.arr [Js.str "a", Js.str "b"]) "1e1" = Js.str "b" ∧
    lookupSpec (Js.arr [Js.str "a", Js.str "b"]) "1e1" = Js.null ∧
    ¬ jsObsEq (getValue (Js.arr [Js.str "a", Js.str "b"]) "1e1")
        (lookupSpec (Js.arr [Js.str "a", Js.str "b"]) "1e1") := by
  refine ⟨rfl, rfl, ?_⟩
  intro h
  rcases h with ⟨h1, h2⟩ | h3
  · exact Bool.noConfusion h1
  · exact Js.noConfusion h3

/-- C3 (amended): the source resolver is observationally equal to the
reference definition whose array clause accepts any segment passing
the JS numeric test and indexes at `parseInt` of the segment (NaN,
negative or out-of-range indexes fail); all other clauses are as the
spec states them, and results differ at most in which not-found
sentinel value (`null` vs `undefined`) is produced. -/
theorem c3_amended_resolver_matches_reference (payload : Js) (path : String) :
    jsObsEq (getValue payload path) (lookupSpecAmended payload path) := by
  unfold getValue lookupSpecAmended
  by_cases hp : path = ""
  · rw [if_pos hp, if_pos hp]
    exact Or.inr rfl
  · rw [if_neg hp, if_neg hp]
    exact getValueGo_obsEq_amended (splitDot path) payload

/-- C4: a non-success fetch outcome for a namespace degrades to the
empty payload rather than surfacing an error, and the aggregate load
(a total function of all outcomes, as `Promise.all` resolves only once
every fetch settles) assigns each requested name the processed result
in its own position, independent of any other namespace's outcome. -/
theorem c4_load_degrades_and_positional :
    (∀ (fetch : String → FetchResult) (name : String),
       (∀ p, fetch name ≠ FetchResult.success p) →
       loadTranslation fetch name = Js.obj [])
  ∧ (∀ (fetch : String → FetchResult) (names : List String) (st : I18nState),
       names.Nodup → ∀ i (h : i < names.length),
       lookupField (loadTranslations fetch names st).translations (names.get ⟨i, h⟩) =
         some (jsOrEmptyObj (loadTranslation fetch (names.get ⟨i, h⟩)))) := by
  constructor
  · intro fetch name h
    unfold loadTranslation
    cases hf : fetch name with
    | success p => exact absurd hf (h p)
    | notOk => rfl
    | failure => rfl
  · intro fetch names st hnd i h
    show lookupField (applyLoads fetch names st.translations) _ = _
    exact applyLoads_lookup fetch names st.translations hnd i h

/-- Witness for C4: a 404 for `contact` gives it an empty payload, and
in an aggregate load of header, footer and contact where only the
contact file loads, the registry entry for `contact` is its own
payload. -/
theorem c4_witness :
    loadTranslation (fun _ => FetchResult.notOk) "contact" = Js.obj [] ∧
    lookupField (loadTranslations fetchW ["header", "footer", "contact"] { }).translations
        "contact" = some (Js.obj [("x", Js.str "v")]) := by
  constructor
  · exact c4_load_degrades_and_positional.1 (fun _ => FetchResult.notOk) "contact"
      (fun p h => FetchResult.noConfusion h)
  · exact c4_load_degrades_and_positional.2 fetchW ["header", "footer", "contact"] { }
      (by decide) 2 (by decide)

/-- C5: when a key resolves (to a non-sentinel value) in no namespace
at all, `t` returns the original key string verbatim, whether or not
an explicit namespace is given. -/
theorem c5_total_miss_returns_key (st : I18nState) (key : String)
    (h : ∀ ns : String, isFound (getValue (st.getNs ns) key) = false) :
    ∀ nsOpt : Option String, t st key nsOpt = Js.str key := by
  have hs : ∀ (gate : String → Bool) (l : List String), searchNs st key gate l = none :=
    fun gate l => searchNs_none st key gate l (fun ns _ => Or.inr (h ns))
  have hcp : currentPageHit st key = none :=
    currentPageHit_none st key (fun p _ => h p)
  have himp : tImplicit st key = Js.str key := by
    rw [tImplicit_eq_of_cpn st key hcp, hs, hs]
  intro nsOpt
  cases nsOpt with
  | none => exact himp
  | some nspace =>
      show (if nspace = "" then tImplicit st key else tExplicit st key nspace) = Js.str key
      by_cases hn : nspace = ""
      · rw [if_pos hn]
        exact himp
      · rw [if_neg hn]
        unfold tExplicit
        rw [currentPageFallback_none st key nspace (fun p _ => h p), hs, hs]
        simp [h nspace]

/-- Witness for C5: with nothing loaded, a missing key comes back
verbatim in both lookup modes. -/
theorem c5_witness :
    t { } "missing" none = Js.str "missing" ∧
    t { } "missing" (some "header") = Js.str "missing" := by
  have h : ∀ ns : String, isFound (getValue (I18nState.getNs { } ns) "missing") = false :=
    fun ns => rfl
  exact ⟨c5_total_miss_returns_key { } "missing" h none,
    c5_total_miss_returns_key { } "missing" h (some "header")⟩

/-- C6: `setLang` with anything other than the two recognized codes is
a complete no-op on the whole state (in-memory cache, persisted
preference, document language attribute and event log all unchanged);
for a recognized code all four effects occur: the cache and the
persisted preference take the code, the document attribute becomes
`zh-CN` or `en`, and a language-change event carrying the code is
appended. -/
theorem c6_setLang_validation (st : I18nState) (lang : String) :
    (lang ≠ "zh" ∧ lang ≠ "en" → setLang st lang = st)
  ∧ (lang = "zh" ∨ lang = "en" →
      (setLang st lang).currentLang = some lang ∧
      (setLang st lang).storedLang = some lang ∧
      (setLang st lang).docLang = (if lang = "zh" then "zh-CN" else "en") ∧
      (setLang st lang).events = st.events ++ [lang]) := by
  constructor
  · intro h
    unfold setLang
    rw [if_pos h]
  · intro h
    have hcond : ¬(lang ≠ "zh" ∧ lang ≠ "en") := by
      rcases h with h | h <;> simp [h]
    unfold setLang
    rw [if_neg hcond]
    exact ⟨rfl, rfl, rfl, rfl⟩

/-- Witness for C6: `fr` is rejected without any state change; `zh`
updates all four pieces of state. -/
theorem c6_witness :
    setLang { } "fr" = ({ } : I18nState) ∧
    (setLang { } "zh").currentLang = some "zh" ∧
    (setLang { } "zh").storedLang = some "zh" ∧
    (setLang { } "zh").docLang = "zh-CN" ∧
    (setLang { } "zh").events = ["zh"] := by
  have h2 := (c6_setLang_validation { } "zh").2 (Or.inl rfl)
  exact ⟨(c6_setLang_validation { } "fr").1 (by decide), h2.1, h2.2.1, h2.2.2.1, h2.2.2.2⟩

/-- C7: the path resolver is a pure function of the navigation path
(modelled as such), and on the four scenario paths produces the page
identifiers the spec states, including the allow-list default for an
unknown page name. -/
theorem c7_page_name_scenarios :
    getPageName "/services.html" = "services" ∧
    getPageName "/" = "index" ∧
    getPageName "/solutions/" = "solutions" ∧
    getPageName "/unknown-page.html" = "index" :=
  ⟨rfl, rfl, rfl, rfl⟩

/-- C8: applying translations a second time over the result of a first
application, with the registry and language state unchanged (the first
pass only caches the already-computed current language), leaves every
element exactly as the first pass did. -/
theorem c8_apply_translations_idempotent (st : I18nState) (dom : List Element) :
    applyTranslations (cacheLang st) (applyTranslations st dom) = applyTranslations st dom := by
  induction dom with
  | nil => rfl
  | cons hd tl ih =>
      show applyElement (cacheLang st) (applyElement st hd) ::
          applyTranslations (cacheLang st) (applyTranslations st tl) =
        applyElement st hd :: applyTranslations st tl
      rw [applyElement_cacheLang, applyElement_idem, ih]

/-- C9: resolving the empty-string key returns the entire payload of
the first consulted namespace (the current page's in the no-namespace
mode, the named one in explicit mode) rather than the missing-key
marker. -/
theorem c9_empty_key_returns_payload (st : I18nState) :
    (∀ p, st.currentPage = some p → p ≠ "" → jsTruthy (st.getNs p) = true →
       t st "" none = st.getNs p ∧ t st "" none ≠ Js.str "")
  ∧ (∀ nspace, nspace ≠ "" → isFound (st.getNs nspace) = true →
       t st "" (some nspace) = st.getNs nspace) := by
  constructor
  · intro p hp hpne htr
    have hv : getValue (st.getNs p) "" = st.getNs p := rfl
    have hf : isFound (getValue (st.getNs p) "") = true := by
      rw [hv]
      exact isFound_of_truthy htr
    have ht : t st "" none = st.getNs p := by
      show tImplicit st "" = _
      unfold tImplicit
      rw [currentPageHit_some st "" p hp hpne htr hf, hv]
    refine ⟨ht, ?_⟩
    rw [ht]
    intro hcontra
    rw [hcontra] at htr
    exact absurd htr (by decide)
  · intro nspace hne hf
    show (if nspace = "" then tImplicit st "" else tExplicit st "" nspace) = st.getNs nspace
    rw [if_neg hne]
    unfold tExplicit
    have hv : getValue (st.getNs nspace) "" = st.getNs nspace := rfl
    simp only [hv]
    rw [if_pos hf]

/-- Witness for C9: with the `index` payload loaded, the empty key
returns the whole payload in both modes. -/
theorem c9_witness :
    t stC9 "" none = Js.obj [("a", Js.num 1)] ∧
    t stC9 "" (some "index") = Js.obj [("a", Js.num 1)] := by
  constructor
  · exact ((c9_empty_key_returns_payload stC9).1 "index" rfl (by decide) rfl).1
  · exact (c9_empty_key_returns_payload stC9).2 "index" (by decide) rfl

/-- C10: the explicit-namespace branch and the no-namespace branch of
`t` use different page-namespace priority lists (`solutions` before
`services` versus `services` before `solutions`), so on a registry
where only those two payloads hold the key and the current page
misses it, the two modes return different values. -/
theorem c10_explicit_vs_implicit_list_order :
    pageNamespacesExplicit ≠ pageNamespacesImplicit ∧
    t stC10 "k" (some "contact") = Js.str "from-solutions" ∧
    t stC10 "k" none = Js.str "from-services" ∧
    Js.str "from-solutions" ≠ Js.str "from-services" := by
  refine ⟨by decide, rfl, rfl, ?_⟩
  intro h
  injection h with h2
  exact absurd h2 (by decide)
